import Mathlib

/-!
Verification development for the simulated stock-market server (`server.js`).

Prices and other JS numbers are embedded as rationals (`ℚ`); integer-valued
fields (volumes, sizes, timestamps) as `ℤ`/`ℕ`.  `Number.prototype.toFixed(2)`
followed by `parseFloat` is embedded as `round2` (round half away from zero at
two decimals; all quantities the code rounds are nonnegative, where this agrees
with round half up).  `Math.random()` draws are passed in explicitly as
rationals in `[0,1)`.  The static symbol catalog is a parameter
(`List (String × StockInfo)`), matching the spec's treatment of the catalog as
an injected read-only table.
-/

namespace StockServer

/-- `parseFloat(x.toFixed(2))`: rounding to two decimal places (half up). -/
def round2 (x : ℚ) : ℚ := (⌊x * 100 + 1/2⌋ : ℚ) / 100

/-- The mutable `simulationSettings` record. -/
structure SimSettings where
  isActive : Bool
  speed : ℚ
  volatilityMultiplier : ℚ
  updateInterval : ℚ
  alwaysOpen : Bool
  priceTickSize : ℚ
  maxTickMultiplier : ℤ
deriving Repr, DecidableEq

/-- The initial `simulationSettings` value from the top of `server.js`. -/
def defaultSettings : SimSettings :=
  { isActive := true, speed := 1, volatilityMultiplier := 1,
    updateInterval := 2000, alwaysOpen := true,
    priceTickSize := 0.05, maxTickMultiplier := 5 }

/-- One catalog entry's metadata (`{name, sector, basePrice}`); index entries
have no `sector` field, embedded as `none`. -/
structure StockInfo where
  name : String
  sector : Option String
  basePrice : ℚ
deriving Repr, DecidableEq

/-- The injected read-only catalog: `symbol → {name, sector, basePrice}`. -/
abbrev Catalog := List (String × StockInfo)

/-- The `sectorVolatility` table inside `getVolatility`. -/
def sectorVolatility : List (String × ℚ) :=
  [("IT", 0.025), ("Banking", 0.02), ("Pharma", 0.022), ("Automobile", 0.023),
   ("Oil & Gas", 0.025), ("FMCG", 0.015), ("Steel", 0.03), ("Finance", 0.028),
   ("Telecom", 0.018), ("Power", 0.016), ("Cement", 0.02), ("Construction", 0.022),
   ("Conglomerate", 0.035), ("Infrastructure", 0.025), ("Food Tech", 0.04),
   ("Fintech", 0.045), ("E-Commerce", 0.04), ("Retail", 0.025),
   ("Consumer Goods", 0.018), ("Paints", 0.017)]

/-- `getVolatility(symbol)`: look the symbol up in the stock catalog; unknown
symbol or unknown sector falls back to `0.02`. -/
def getVolatility (stocks : Catalog) (symbol : String) : ℚ :=
  match List.lookup symbol stocks with
  | none => 0.02
  | some stock =>
    match stock.sector with
    | none => 0.02
    | some sec => (List.lookup sec sectorVolatility).getD 0.02

/-- One symbol's record in the `simulatedPrices` map. -/
structure Quote where
  symbol : String
  name : String
  sector : String
  price : ℚ
  previousClose : ℚ
  «open» : ℚ
  high : ℚ
  low : ℚ
  volume : ℤ
  change : ℚ
  changePercent : ℚ
  lastUpdated : ℤ
  bid : ℚ
  ask : ℚ
  bidSize : ℤ
  askSize : ℤ
deriving Repr, DecidableEq

/-! ### History synthesizer (`generateHistoricalData`) -/

/-- One day's `open/high/low/close/volume` candle.  The ISO date string is
embedded as the day's epoch-day number (`date`); `timestamp` is milliseconds. -/
structure Candle where
  date : ℤ
  timestamp : ℤ
  «open» : ℚ
  high : ℚ
  low : ℚ
  close : ℚ
  volume : ℤ
deriving Repr, DecidableEq

/-- The `Math.random()` draws one kept day of the history loop consumes. -/
structure DayDraws where
  rChange : ℚ
  rHigh : ℚ
  rLow : ℚ
  rVol : ℚ
deriving Repr, DecidableEq

/-- All four draws lie in `[0,1)`. -/
def DayDraws.valid (d : DayDraws) : Prop :=
  0 ≤ d.rChange ∧ d.rChange < 1 ∧ 0 ≤ d.rHigh ∧ d.rHigh < 1 ∧
  0 ≤ d.rLow ∧ d.rLow < 1 ∧ 0 ≤ d.rVol ∧ d.rVol < 1

/-- JS `Date.prototype.getDay()` on an epoch-day number
(day 0 = 1970-01-01 was a Thursday, so `getDay = (epochDay + 4) mod 7`). -/
def dayOfWeek (epochDay : ℤ) : ℤ := (epochDay + 4) % 7

/-- The loop body of `generateHistoricalData`: walk over the remaining
day-offsets (the JS loop runs `i = days ... 0`), skip weekends, and for each
kept day emit one candle and carry the (unrounded) close forward. -/
def genHistoryDays (basePrice volatility : ℚ) (todayEpochDay timeOfDayMs : ℤ)
    (f : ℕ → DayDraws) : List ℕ → ℚ → List Candle
  | [], _ => []
  | i :: rest, currentPrice =>
    let day := todayEpochDay - (i : ℤ)
    if dayOfWeek day = 0 ∨ dayOfWeek day = 6 then
      genHistoryDays basePrice volatility todayEpochDay timeOfDayMs f rest currentPrice
    else
      let d := f i
      let trend := (basePrice - currentPrice) * 0.001
      let change := (d.rChange - 0.5) * volatility * currentPrice + trend
      let openP := currentPrice
      let close := max (currentPrice + change) (currentPrice * 0.5)
      let high := max openP close * (1 + d.rHigh * volatility * 0.5)
      let low := min openP close * (1 - d.rLow * volatility * 0.5)
      let volume : ℤ := ⌊d.rVol * 10000000⌋ + 500000
      { date := day, timestamp := day * 86400000 + timeOfDayMs,
        «open» := round2 openP, high := round2 high, low := round2 low,
        close := round2 close, volume := volume } ::
      genHistoryDays basePrice volatility todayEpochDay timeOfDayMs f rest close

/-- The day-offset sequence `[days, days-1, ..., 1, 0]` of the JS `for` loop. -/
def countdown (days : ℕ) : List ℕ := (List.range (days + 1)).reverse

/-- `generateHistoricalData(basePrice, symbol, days = 365)`.  `rInit` is the
draw for the starting price, `f i` the draws consumed on day-offset `i`. -/
def generateHistoricalData (stocks : Catalog) (basePrice : ℚ) (symbol : String)
    (rInit : ℚ) (f : ℕ → DayDraws) (todayEpochDay timeOfDayMs : ℤ)
    (days : ℕ := 365) : List Candle :=
  let currentPrice := basePrice * (0.7 + rInit * 0.4)
  let volatility := getVolatility stocks symbol * 2
  genHistoryDays basePrice volatility todayEpochDay timeOfDayMs f
    (countdown days) currentPrice

/-! ### Price state store initialization (`initializeSimulatedPrices`) -/

/-- The draws `initializeSimulatedPrices` consumes for one symbol. -/
structure InitDraws where
  rVar : ℚ
  rOpen : ℚ
  rHigh : ℚ
  rLow : ℚ
  rVol : ℚ
  rBidSize : ℚ
  rAskSize : ℚ
  rHistInit : ℚ
  rHist : ℕ → DayDraws

/-- The quote draws lie in `[0,1)`. -/
def InitDraws.valid (d : InitDraws) : Prop :=
  0 ≤ d.rVar ∧ d.rVar < 1 ∧ 0 ≤ d.rOpen ∧ d.rOpen < 1 ∧
  0 ≤ d.rHigh ∧ d.rHigh < 1 ∧ 0 ≤ d.rLow ∧ d.rLow < 1 ∧
  0 ≤ d.rVol ∧ d.rVol < 1 ∧ 0 ≤ d.rBidSize ∧ d.rBidSize < 1 ∧
  0 ≤ d.rAskSize ∧ d.rAskSize < 1

/-- The quote record one catalog entry is seeded with. -/
def initQuote (stocks : Catalog) (d : InitDraws) (nowMs : ℤ)
    (symbol : String) (data : StockInfo) : Quote :=
  let volatility := getVolatility stocks symbol
  let randomVariation := (d.rVar - 0.5) * 2 * volatility * data.basePrice
  let price := data.basePrice + randomVariation
  { symbol := symbol
    name := data.name
    sector := data.sector.getD "Index"
    price := round2 price
    previousClose := data.basePrice
    «open» := data.basePrice + (d.rOpen - 0.5) * 0.01 * data.basePrice
    high := price * (1 + d.rHigh * 0.02)
    low := price * (1 - d.rLow * 0.02)
    volume := ⌊d.rVol * 10000000⌋ + 1000000
    change := round2 (price - data.basePrice)
    changePercent := round2 ((price - data.basePrice) / data.basePrice * 100)
    lastUpdated := nowMs
    bid := round2 (price * 0.9995)
    ask := round2 (price * 1.0005)
    bidSize := ⌊d.rBidSize * 1000⌋ + 100
    askSize := ⌊d.rAskSize * 1000⌋ + 100 }

/-- The quote half of `initializeSimulatedPrices`: one quote per entry of the
merged catalog, draws indexed by iteration position. -/
def initQuotes (stocks : Catalog) (f : ℕ → InitDraws) (nowMs : ℤ) :
    ℕ → Catalog → List Quote
  | _, [] => []
  | i, (symbol, data) :: rest =>
    initQuote stocks (f i) nowMs symbol data ::
    initQuotes stocks f nowMs (i + 1) rest

/-- The history half of `initializeSimulatedPrices`: each symbol's series is
regenerated wholesale from its base price. -/
def initHistories (stocks : Catalog) (f : ℕ → InitDraws)
    (todayEpochDay timeOfDayMs : ℤ) : ℕ → Catalog → List (String × List Candle)
  | _, [] => []
  | i, (symbol, data) :: rest =>
    (symbol, generateHistoricalData stocks data.basePrice symbol
      (f i).rHistInit (f i).rHist todayEpochDay timeOfDayMs 365) ::
    initHistories stocks f todayEpochDay timeOfDayMs (i + 1) rest

/-- `initializeSimulatedPrices()`: seeds `simulatedPrices` and `priceHistory`
from the merged catalog `allStocks = {...INDIAN_STOCKS, ...INDICES}`;
`stocks` is the stock catalog `getVolatility` consults. -/
def initializeSimulatedPrices (stocks allStocks : Catalog) (f : ℕ → InitDraws)
    (nowMs todayEpochDay timeOfDayMs : ℤ) :
    List Quote × List (String × List Candle) :=
  (initQuotes stocks f nowMs 0 allStocks,
   initHistories stocks f todayEpochDay timeOfDayMs 0 allStocks)

/-- `POST /api/simulation/reset` simply re-runs `initializeSimulatedPrices`
over the same catalog. -/
def resetSimulation (stocks allStocks : Catalog) (f : ℕ → InitDraws)
    (nowMs todayEpochDay timeOfDayMs : ℤ) :
    List Quote × List (String × List Candle) :=
  initializeSimulatedPrices stocks allStocks f nowMs todayEpochDay timeOfDayMs

/-! ### Market clock (`isMarketOpen`) -/

/-- The wall clock as the code reads it: UTC day-of-week (0 = Sunday),
hour and minute. -/
structure UTCTime where
  utcDay : ℕ
  utcHour : ℕ
  utcMinute : ℕ
deriving Repr, DecidableEq

/-- The part of `isMarketOpen`'s result the engine consults. -/
structure MarketStatus where
  isOpen : Bool
  reason : String
deriving Repr, DecidableEq

/-- `isMarketOpen()`: always-open override, else IST weekend/session windows. -/
def isMarketOpen (s : SimSettings) (now : UTCTime) : MarketStatus :=
  if s.alwaysOpen then
    { isOpen := true, reason := "Simulation Mode - Always Open" }
  else
    let istOffset : ℕ := 330
    let utcMinutes := now.utcHour * 60 + now.utcMinute
    let istMinutes := utcMinutes + istOffset
    let istHour := (istMinutes / 60) % 24
    let istMinute := istMinutes % 60
    let istDay := if 24 * 60 ≤ istMinutes then (now.utcDay + 1) % 7 else now.utcDay
    if istDay = 0 ∨ istDay = 6 then
      { isOpen := false, reason := "Weekend - Market Closed" }
    else
      let marketOpenMinutes := 9 * 60 + 15
      let marketCloseMinutes := 15 * 60 + 30
      let currentISTMinutes := istHour * 60 + istMinute
      let preMarketOpen := 9 * 60
      if currentISTMinutes < preMarketOpen then
        { isOpen := false, reason := "Pre-Market - Opening at 9:15 AM IST" }
      else if preMarketOpen ≤ currentISTMinutes ∧ currentISTMinutes < marketOpenMinutes then
        { isOpen := false, reason := "Pre-Market Session" }
      else if marketOpenMinutes ≤ currentISTMinutes ∧ currentISTMinutes < marketCloseMinutes then
        { isOpen := true, reason := "Market Open" }
      else if marketCloseMinutes ≤ currentISTMinutes ∧ currentISTMinutes < 16 * 60 then
        { isOpen := false, reason := "Post-Market Session" }
      else
        { isOpen := false, reason := "Market Closed" }

/-! ### Simulation tick (`updateSimulatedPrices`) -/

/-- The `Math.random()` draws one symbol's update consumes during a tick. -/
structure TickDraws where
  rTicks : ℚ
  rDir : ℚ
  rMove : ℚ
  rVolInc : ℚ
  rBidSize : ℚ
  rAskSize : ℚ
deriving Repr, DecidableEq

/-- All draws lie in `[0,1)`. -/
def TickDraws.valid (d : TickDraws) : Prop :=
  0 ≤ d.rTicks ∧ d.rTicks < 1 ∧ 0 ≤ d.rDir ∧ d.rDir < 1 ∧
  0 ≤ d.rMove ∧ d.rMove < 1 ∧ 0 ≤ d.rVolInc ∧ d.rVolInc < 1 ∧
  0 ≤ d.rBidSize ∧ d.rBidSize < 1 ∧ 0 ≤ d.rAskSize ∧ d.rAskSize < 1

/-- The per-day delta exactly as claim C2 states it, with the uniform draw
made explicit (`r` in `[0,1)`, so `U(-1,1) = 2r-1`):
`delta = (2r-1) * 2 * volatility * currentPrice + trend`.  This is a
spec-side definition, written from the claim's words, to be compared with
the code's `generateHistoricalData`. -/
def specClaimDelta (r volatility currentPrice basePrice : ℚ) : ℚ :=
  (2 * r - 1) * (2 * volatility) * currentPrice +
  (basePrice - currentPrice) * 0.001

/-- The amended per-day delta:
`delta = (2r-1) * volatility * currentPrice + trend` (the code multiplies
`(r - 0.5)`, whose range is `[-0.5, 0.5)`, by `2 * volatility`). -/
def specDeltaAmended (r volatility currentPrice basePrice : ℚ) : ℚ :=
  (2 * r - 1) * volatility * currentPrice +
  (basePrice - currentPrice) * 0.001

/-- The per-symbol body of `updateSimulatedPrices` (including the
no-movement skip). -/
def updateOneQuote (stocks : Catalog) (s : SimSettings) (d : TickDraws)
    (nowMs : ℤ) (q : Quote) : Quote :=
  let speedMultiplier := s.speed * s.volatilityMultiplier
  let volatility := getVolatility stocks q.symbol * speedMultiplier
  let numTicks : ℤ := ⌊d.rTicks * (s.maxTickMultiplier : ℚ)⌋ + 1
  let tickValue := s.priceTickSize * (numTicks : ℚ)
  let directionBias := (d.rDir - 0.5) * 2
  let movementChance := 0.7 + volatility * 5
  if movementChance < d.rMove then q
  else
    let change := if 0 < directionBias then tickValue else -tickValue
    let newPrice := max (q.price + change) (q.price * 0.5)
    let high := max q.high newPrice
    let low := min q.low newPrice
    let priceChange := newPrice - q.previousClose
    let changePercent := priceChange / q.previousClose * 100
    let volumeIncrease : ℤ := ⌊d.rVolInc * 50000⌋
    { q with
      price := round2 newPrice
      high := round2 high
      low := round2 low
      change := round2 priceChange
      changePercent := round2 changePercent
      volume := q.volume + volumeIncrease
      bid := round2 (newPrice * 0.9995)
      ask := round2 (newPrice * 1.0005)
      bidSize := ⌊d.rBidSize * 1000⌋ + 100
      askSize := ⌊d.rAskSize * 1000⌋ + 100
      lastUpdated := nowMs }

/-- The `simulatedPrices.forEach` loop of a tick, draws indexed by iteration
position. -/
def updateQuotes (stocks : Catalog) (s : SimSettings) (nowMs : ℤ)
    (f : ℕ → TickDraws) : ℕ → List Quote → List Quote
  | _, [] => []
  | i, q :: rest =>
    updateOneQuote stocks s (f i) nowMs q ::
    updateQuotes stocks s nowMs f (i + 1) rest

/-- `updateSimulatedPrices()`: one timer firing.  Gated on the market clock
unless `alwaysOpen` is set. -/
def updateSimulatedPrices (stocks : Catalog) (s : SimSettings) (now : UTCTime)
    (nowMs : ℤ) (f : ℕ → TickDraws) (store : List Quote) : List Quote :=
  let marketStatus := isMarketOpen s now
  if !marketStatus.isOpen && !s.alwaysOpen then store
  else updateQuotes stocks s nowMs f 0 store

/-! ### Settings controller and update timer -/

/-- The request body of `PUT /api/simulation/settings`: each recognized field
is either absent (`undefined`) or present with a value. -/
structure SettingsBody where
  speed : Option ℚ
  volatilityMultiplier : Option ℚ
  alwaysOpen : Option Bool
  updateInterval : Option ℚ
  priceTickSize : Option ℚ
  maxTickMultiplier : Option ℚ
deriving Repr, DecidableEq

/-- A body with no recognized fields (`update({})`). -/
def emptyBody : SettingsBody :=
  { speed := none, volatilityMultiplier := none, alwaysOpen := none,
    updateInterval := none, priceTickSize := none, maxTickMultiplier := none }

/-- The allowed `priceTickSize` values. -/
def validTickSizes : List ℚ := [0.01, 0.05, 0.10, 0.25, 0.50, 1.00]

/-- The field-by-field validation of `PUT /api/simulation/settings`:
a provided field is applied only if it passes its bound / enum check;
invalid fields are silently ignored. -/
def applySettingsUpdate (body : SettingsBody) (s : SimSettings) : SimSettings :=
  let s := match body.speed with
    | some v => if 0 < v ∧ v ≤ 10 then { s with speed := v } else s
    | none => s
  let s := match body.volatilityMultiplier with
    | some v => if 0 < v ∧ v ≤ 5 then { s with volatilityMultiplier := v } else s
    | none => s
  let s := match body.alwaysOpen with
    | some v => { s with alwaysOpen := v }
    | none => s
  let s := match body.updateInterval with
    | some v => if 500 ≤ v ∧ v ≤ 10000 then { s with updateInterval := v } else s
    | none => s
  let s := match body.priceTickSize with
    | some v => if v ∈ validTickSizes then { s with priceTickSize := v } else s
    | none => s
  let s := match body.maxTickMultiplier with
    | some v => if 1 ≤ v ∧ v ≤ 10 then { s with maxTickMultiplier := ⌊v⌋ } else s
    | none => s
  s

/-- The update timer: `updateIntervalId` is the currently armed `setInterval`
handle, `interval` its cadence, and `nextHandle` the next fresh handle
`setInterval` would return. -/
structure TimerState where
  updateIntervalId : Option ℕ
  interval : ℚ
  nextHandle : ℕ
deriving Repr, DecidableEq

/-- `startPriceUpdates()`: clear any armed timer and arm a fresh one at
`max(500, updateInterval / speed)`. -/
def startPriceUpdates (s : SimSettings) (t : TimerState) : TimerState :=
  let interval := max 500 (s.updateInterval / s.speed)
  { updateIntervalId := some t.nextHandle, interval := interval,
    nextHandle := t.nextHandle + 1 }

/-- The `PUT /api/simulation/settings` handler: validate and apply the body's
fields, then unconditionally restart the price-update timer. -/
def putSimulationSettings (body : SettingsBody) (s : SimSettings)
    (t : TimerState) : SimSettings × TimerState :=
  let s' := applySettingsUpdate body s
  (s', startPriceUpdates s' t)

/-! ### History endpoint (`GET /api/stocks/:symbol/history`) -/

/-- JS `x || y` on a number: fall back to `y` when `x` is `0` (falsy). -/
def jsOrQ (x y : ℚ) : ℚ := if x = 0 then y else x

/-- JS `x || y` on an integer: fall back to `y` when `x` is `0` (falsy). -/
def jsOrZ (x y : ℤ) : ℤ := if x = 0 then y else x

/-- `ranges[range] || 365`: the day count of a `range` query value. -/
def rangeDays (range : String) : ℕ :=
  if range = "1d" then 1
  else if range = "5d" then 5
  else if range = "1mo" then 30
  else if range = "3mo" then 90
  else if range = "6mo" then 180
  else if range = "1y" then 365
  else 365

/-- The range filter of the history handler: keep the candles with
`timestamp >= now - days*86400000`. -/
def filteredHistory (stored : List Candle) (nowMs : ℤ) (range : String) :
    List Candle :=
  let daysToInclude := rangeDays range
  let cutoffDate := nowMs - (daysToInclude : ℤ) * 86400000
  stored.filter (fun c => cutoffDate ≤ c.timestamp)

/-- The served candle list of `GET /api/stocks/:symbol/history` for a symbol
whose stored series is `stored` and whose live quote is `quote`: filter by the
range cutoff, then overlay today's candle with the live quote, or append a
synthetic "today" candle — both on the served copy only. -/
def serveHistory (stored : List Candle) (quote : Option Quote)
    (todayEpochDay nowMs : ℤ) (range : String) : List Candle :=
  let history := filteredHistory stored nowMs range
  match quote with
  | none => history
  | some q =>
    if h : history ≠ [] then
      let lastCandle := history.getLast h
      if lastCandle.date = todayEpochDay then
        history.dropLast ++
          [{ lastCandle with
             close := q.price
             high := max lastCandle.high q.price
             low := min lastCandle.low q.price
             volume := jsOrZ q.volume lastCandle.volume }]
      else
        history ++
          [{ date := todayEpochDay, timestamp := nowMs,
             «open» := jsOrQ q.previousClose q.price,
             high := jsOrQ q.high q.price,
             low := jsOrQ q.low q.price,
             close := q.price,
             volume := jsOrZ q.volume 0 }]
    else history

/-- The same handler with candle objects held in an identity heap
(object id → candle), so that aliasing between the stored array and the
served array is explicit: `filter` produces a fresh array holding the same
object ids, and the overlay / append branches allocate fresh objects
(`{...lastCandle, ...}` and the object literal) instead of writing through a
shared id.  Returns the heap after the request and the served id list. -/
def serveHistoryAlias (heap : List (ℕ × Candle)) (nextId : ℕ)
    (storedIds : List ℕ) (quote : Option Quote)
    (todayEpochDay nowMs : ℤ) (range : String) :
    List (ℕ × Candle) × ℕ × List ℕ :=
  let cutoffDate := nowMs - (rangeDays range : ℤ) * 86400000
  let history := storedIds.filter (fun i =>
    match List.lookup i heap with
    | some c => decide (cutoffDate ≤ c.timestamp)
    | none => false)
  match quote with
  | none => (heap, nextId, history)
  | some q =>
    if h : history ≠ [] then
      let lastId := history.getLast h
      match List.lookup lastId heap with
      | none => (heap, nextId, history)
      | some lastCandle =>
        if lastCandle.date = todayEpochDay then
          (heap ++ [(nextId,
             { lastCandle with
               close := q.price
               high := max lastCandle.high q.price
               low := min lastCandle.low q.price
               volume := jsOrZ q.volume lastCandle.volume })],
           nextId + 1,
           history.dropLast ++ [nextId])
        else
          (heap ++ [(nextId,
             { date := todayEpochDay, timestamp := nowMs,
               «open» := jsOrQ q.previousClose q.price,
               high := jsOrQ q.high q.price,
               low := jsOrQ q.low q.price,
               close := q.price,
               volume := jsOrZ q.volume 0 })],
           nextId + 1,
           history ++ [nextId])
    else (heap, nextId, history)

/-! ### Concrete instances used by counterexamples and witnesses -/

/-- A quote with a tiny (but positive) two-thousandths price: the tick floors
the new price at half of it and `toFixed(2)` rounds that to `0`. -/
def cexQuoteA : Quote :=
  { symbol := "A", name := "A Ltd", sector := "X", price := 1/250,
    previousClose := 1, «open» := 1, high := 1, low := 1/1000,
    volume := 0, change := 0, changePercent := 0, lastUpdated := 0,
    bid := 1, ask := 1, bidSize := 0, askSize := 0 }

/-- A quote with positive price but `low > price`: a skipped symbol keeps it. -/
def cexQuoteB : Quote :=
  { symbol := "B", name := "B Ltd", sector := "X", price := 1,
    previousClose := 1, «open» := 1, high := 0, low := 2,
    volume := 0, change := 0, changePercent := 0, lastUpdated := 0,
    bid := 1, ask := 1, bidSize := 0, askSize := 0 }

/-- Tick draws: the first symbol moves down one tick, the second draws
`rMove = 0.9 > movementChance = 0.8` and is skipped. -/
def cexTickDraws : ℕ → TickDraws := fun i =>
  if i = 0 then ⟨0, 0, 0, 0, 0, 0⟩ else ⟨0, 0, 9/10, 0, 0, 0⟩

/-- A stored candle dated far in the past (epoch day 0). -/
def cexOldCandle : Candle :=
  { date := 0, timestamp := 0, «open» := 100, high := 101, low := 99,
    close := 100, volume := 1000 }

/-- A stored candle dated "today" (epoch day 730) for the overlay witness. -/
def cexTodayCandle : Candle :=
  { date := 730, timestamp := 63071000000, «open» := 100, high := 101,
    low := 99, close := 100, volume := 1000 }

/-- A well-formed benign quote for witnesses. -/
def okQuote : Quote :=
  { symbol := "FOO.NS", name := "Foo Ltd", sector := "IT", price := 100,
    previousClose := 100, «open» := 100, high := 101, low := 99,
    volume := 5000, change := 0, changePercent := 0, lastUpdated := 0,
    bid := 99, ask := 101, bidSize := 100, askSize := 100 }

/-! ## Helper lemmas -/

theorem round2_mono {x y : ℚ} (h : x ≤ y) : round2 x ≤ round2 y := by
  unfold round2
  have : (⌊x * 100 + 1/2⌋ : ℤ) ≤ ⌊y * 100 + 1/2⌋ := by
    apply Int.floor_le_floor
    nlinarith
  have h2 : ((⌊x * 100 + 1/2⌋ : ℤ) : ℚ) ≤ ((⌊y * 100 + 1/2⌋ : ℤ) : ℚ) := by
    exact_mod_cast this
  linarith

theorem round2_nonneg {x : ℚ} (h : 0 ≤ x) : 0 ≤ round2 x := by
  have h0 : round2 0 = 0 := by norm_num [round2]
  calc (0 : ℚ) = round2 0 := h0.symm
    _ ≤ round2 x := round2_mono h

/-- `round2` of anything at least `1/200` (= 0.005) is at least `0.01`. -/
theorem round2_ge_centi {x : ℚ} (h : 1/200 ≤ x) : 1/100 ≤ round2 x := by
  have h1 : round2 (1/200) = 1/100 := by norm_num [round2]
  have := round2_mono h
  rw [h1] at this
  exact this

/-- A defaulted association-list lookup either returns the default or some
value stored in the list. -/
theorem lookup_getD_cases {α β : Type} [BEq α] (l : List (α × β)) (k : α) (d : β) :
    (List.lookup k l).getD d = d ∨ ∃ p ∈ l, (List.lookup k l).getD d = p.2 := by
  induction l with
  | nil => left; rfl
  | cons p t ih =>
    obtain ⟨a, b⟩ := p
    by_cases hk : (k == a) = true
    · right
      refine ⟨(a, b), List.mem_cons_self _ _, ?_⟩
      simp [List.lookup, hk]
    · have hk' : (k == a) = false := by
        cases hkk : (k == a) with
        | false => rfl
        | true => exact absurd hkk hk
      have : List.lookup k ((a, b) :: t) = List.lookup k t := by
        simp [List.lookup, hk']
      rw [this]
      rcases ih with h | ⟨q, hq, hval⟩
      · left; exact h
      · right; exact ⟨q, List.mem_cons_of_mem _ hq, hval⟩

theorem sectorVolatility_snd_bounds :
    ∀ p ∈ sectorVolatility, 0 < p.2 ∧ p.2 ≤ 0.045 := by
  intro p hp
  fin_cases hp <;> norm_num

theorem getVolatility_pos (stocks : Catalog) (symbol : String) :
    0 < getVolatility stocks symbol := by
  unfold getVolatility
  split
  · norm_num
  · split
    · norm_num
    · rcases lookup_getD_cases sectorVolatility _ (0.02 : ℚ) with h | ⟨p, hp, hval⟩
      · rw [h]; norm_num
      · rw [hval]; exact (sectorVolatility_snd_bounds p hp).1

theorem getVolatility_le (stocks : Catalog) (symbol : String) :
    getVolatility stocks symbol ≤ 0.045 := by
  unfold getVolatility
  split
  · norm_num
  · split
    · norm_num
    · rcases lookup_getD_cases sectorVolatility _ (0.02 : ℚ) with h | ⟨p, hp, hval⟩
      · rw [h]; norm_num
      · rw [hval]; exact (sectorVolatility_snd_bounds p hp).2

/-- A binding present in an association list survives appending more
bindings on the right (`List.lookup` takes the first match). -/
theorem lookup_append_of_some {α β : Type} [BEq α] {l₁ : List (α × β)}
    (l₂ : List (α × β)) {k : α} {v : β} (h : List.lookup k l₁ = some v) :
    List.lookup k (l₁ ++ l₂) = some v := by
  induction l₁ with
  | nil => simp [List.lookup] at h
  | cons p t ih =>
    obtain ⟨a, b⟩ := p
    cases hk : (k == a) with
    | true =>
      simp [List.lookup, hk] at h ⊢
      exact h
    | false =>
      simp [List.lookup, hk] at h ⊢
      exact ih h

/-- Position `i` of the seeded quote list is `initQuote` of position `i` of
the catalog. -/
theorem initQuotes_get? (stocks : Catalog) (f : ℕ → InitDraws) (nowMs : ℤ) :
    ∀ (l : Catalog) (k i : ℕ),
      (initQuotes stocks f nowMs k l).get? i =
        (l.get? i).map (fun p => initQuote stocks (f (k + i)) nowMs p.1 p.2)
  | [], _, _ => by simp [initQuotes]
  | (sym, data) :: rest, k, 0 => by simp [initQuotes]
  | (sym, data) :: rest, k, i + 1 => by
    have ih := initQuotes_get? stocks f nowMs rest (k + 1) i
    simp only [initQuotes, List.get?, ih]
    have : k + 1 + i = k + (i + 1) := by omega
    rw [this]

/-- Every quote produced by the seeding loop comes from some catalog entry
through `initQuote`. -/
theorem mem_initQuotes {stocks : Catalog} {f : ℕ → InitDraws} {nowMs : ℤ} :
    ∀ {l : Catalog} {k : ℕ} {q : Quote}, q ∈ initQuotes stocks f nowMs k l →
      ∃ j p, p ∈ l ∧ q = initQuote stocks (f j) nowMs p.1 p.2
  | [], _, _, h => by simp [initQuotes] at h
  | (sym, data) :: rest, k, q, h => by
    simp only [initQuotes, List.mem_cons] at h
    rcases h with h | h
    · exact ⟨k, (sym, data), List.mem_cons_self _ _, h⟩
    · obtain ⟨j, p, hp, hq⟩ := mem_initQuotes h
      exact ⟨j, p, List.mem_cons_of_mem _ hp, hq⟩

/-- Every quote produced by the tick loop is `updateOneQuote` of some
pre-tick quote. -/
theorem mem_updateQuotes {stocks : Catalog} {s : SimSettings} {nowMs : ℤ}
    {f : ℕ → TickDraws} :
    ∀ {l : List Quote} {k : ℕ} {q' : Quote},
      q' ∈ updateQuotes stocks s nowMs f k l →
      ∃ j q, q ∈ l ∧ q' = updateOneQuote stocks s (f j) nowMs q
  | [], _, _, h => by simp [updateQuotes] at h
  | q :: rest, k, q', h => by
    simp only [updateQuotes, List.mem_cons] at h
    rcases h with h | h
    · exact ⟨k, q, List.mem_cons_self _ _, h⟩
    · obtain ⟨j, p, hp, hq⟩ := mem_updateQuotes h
      exact ⟨j, p, List.mem_cons_of_mem _ hp, hq⟩

/-- For a nonnegative price, the derived bid/ask bracket it after rounding. -/
theorem round2_spread_bracket {p : ℚ} (hp : 0 ≤ p) :
    round2 (p * 0.9995) ≤ round2 p ∧ round2 p ≤ round2 (p * 1.0005) :=
  ⟨round2_mono (by nlinarith), round2_mono (by nlinarith)⟩

/-- The floored new price `max(old + change, old * 0.5)` is nonnegative
whenever the old price is. -/
theorem newPrice_nonneg {p x : ℚ} (hp : 0 ≤ p) : 0 ≤ max (p + x) (p * 0.5) :=
  le_trans (by linarith) (le_max_right _ _)

/-- Per-quote step of C1: one `updateOneQuote` preserves
`low ≤ price ≤ high ∧ 0.01 ≤ price`. -/
theorem updateOneQuote_bracket (stocks : Catalog) (s : SimSettings)
    (d : TickDraws) (nowMs : ℤ) (q : Quote)
    (h : q.low ≤ q.price ∧ q.price ≤ q.high ∧ 1/100 ≤ q.price) :
    (updateOneQuote stocks s d nowMs q).low ≤ (updateOneQuote stocks s d nowMs q).price ∧
    (updateOneQuote stocks s d nowMs q).price ≤ (updateOneQuote stocks s d nowMs q).high ∧
    1/100 ≤ (updateOneQuote stocks s d nowMs q).price := by
  obtain ⟨h1, h2, h3⟩ := h
  unfold updateOneQuote
  dsimp only
  split
  · exact ⟨h1, h2, h3⟩
  · refine ⟨round2_mono (min_le_right _ _), round2_mono (le_max_right _ _), ?_⟩
    exact round2_ge_centi
      (le_trans (by linarith : (1/200 : ℚ) ≤ q.price * 0.5) (le_max_right _ _))

/-- Per-quote step of C9: one `updateOneQuote` preserves
`bid ≤ price ≤ ask ∧ 0 ≤ price`. -/
theorem updateOneQuote_spread (stocks : Catalog) (s : SimSettings)
    (d : TickDraws) (nowMs : ℤ) (q : Quote)
    (h : q.bid ≤ q.price ∧ q.price ≤ q.ask ∧ 0 ≤ q.price) :
    (updateOneQuote stocks s d nowMs q).bid ≤ (updateOneQuote stocks s d nowMs q).price ∧
    (updateOneQuote stocks s d nowMs q).price ≤ (updateOneQuote stocks s d nowMs q).ask ∧
    0 ≤ (updateOneQuote stocks s d nowMs q).price := by
  obtain ⟨h1, h2, h3⟩ := h
  unfold updateOneQuote
  dsimp only
  split
  · exact ⟨h1, h2, h3⟩
  · exact ⟨(round2_spread_bracket (newPrice_nonneg h3)).1,
      (round2_spread_bracket (newPrice_nonneg h3)).2,
      round2_nonneg (newPrice_nonneg h3)⟩

/-- The seeded quote of a positive-base-price catalog entry has
`bid ≤ price ≤ ask ∧ 0 ≤ price`. -/
theorem initQuote_spread (stocks : Catalog) (d : InitDraws) (nowMs : ℤ)
    (sym : String) (info : StockInfo)
    (hd : d.valid) (hb : 0 < info.basePrice) :
    (initQuote stocks d nowMs sym info).bid ≤ (initQuote stocks d nowMs sym info).price ∧
    (initQuote stocks d nowMs sym info).price ≤ (initQuote stocks d nowMs sym info).ask ∧
    0 ≤ (initQuote stocks d nowMs sym info).price := by
  obtain ⟨hr0, hr1, _⟩ := hd
  have hv := getVolatility_pos stocks sym
  have hv' := getVolatility_le stocks sym
  have hp : (0 : ℚ) ≤ info.basePrice +
      (d.rVar - 0.5) * 2 * getVolatility stocks sym * info.basePrice := by
    nlinarith [mul_pos hv hb, mul_le_mul_of_nonneg_right hv' hb.le,
      mul_nonneg (mul_nonneg hr0 hv.le) hb.le]
  unfold initQuote
  dsimp only
  exact ⟨(round2_spread_bracket hp).1, (round2_spread_bracket hp).2,
    round2_nonneg hp⟩

/-- Every candle the history loop emits comes from a day-offset in the input
list, carries that day's date and timestamp, and is not weekend-dated. -/
theorem genHistoryDays_mem_shape (b v : ℚ) (ted tod : ℤ) (f : ℕ → DayDraws) :
    ∀ (l : List ℕ) (cp : ℚ) (c : Candle),
      c ∈ genHistoryDays b v ted tod f l cp →
      ∃ i ∈ l, c.date = ted - (i : ℤ) ∧
        c.timestamp = (ted - (i : ℤ)) * 86400000 + tod ∧
        dayOfWeek (ted - (i : ℤ)) ≠ 0 ∧ dayOfWeek (ted - (i : ℤ)) ≠ 6
  | [], cp, c, h => by simp [genHistoryDays] at h
  | i :: rest, cp, c, h => by
    rw [genHistoryDays] at h
    dsimp only at h
    split at h
    · obtain ⟨j, hj, hprops⟩ := genHistoryDays_mem_shape b v ted tod f rest cp c h
      exact ⟨j, List.mem_cons_of_mem _ hj, hprops⟩
    · rcases List.mem_cons.mp h with rfl | h
      · rename_i hday
        push_neg at hday
        exact ⟨i, List.mem_cons_self _ _, rfl, rfl, hday.1, hday.2⟩
      · obtain ⟨j, hj, hprops⟩ := genHistoryDays_mem_shape b v ted tod f rest _ c h
        exact ⟨j, List.mem_cons_of_mem _ hj, hprops⟩

/-- If the day-offset list is strictly decreasing, the emitted candles have
strictly increasing timestamps. -/
theorem genHistoryDays_pairwise (b v : ℚ) (ted tod : ℤ) (f : ℕ → DayDraws) :
    ∀ (l : List ℕ) (cp : ℚ), l.Pairwise (· > ·) →
      (genHistoryDays b v ted tod f l cp).Pairwise
        (fun c₁ c₂ => c₁.timestamp < c₂.timestamp)
  | [], cp, _ => by simp [genHistoryDays]
  | i :: rest, cp, hp => by
    rw [genHistoryDays]
    dsimp only
    split
    · exact genHistoryDays_pairwise b v ted tod f rest cp hp.of_cons
    · refine List.Pairwise.cons ?_
        (genHistoryDays_pairwise b v ted tod f rest _ hp.of_cons)
      intro c hc
      obtain ⟨j, hj, _, hts, _, _⟩ :=
        genHistoryDays_mem_shape b v ted tod f rest _ c hc
      have hij : i > j := List.rel_of_pairwise_cons hp hj
      show (ted - (i : ℤ)) * 86400000 + tod < c.timestamp
      rw [hts]
      have hlt : ted - (i : ℤ) < ted - (j : ℤ) := by omega
      have := mul_lt_mul_of_pos_right hlt (by norm_num : (0 : ℤ) < 86400000)
      omega

/-- Core OHLC inequalities of one emitted candle, before rounding. -/
theorem candle_ohlc_core {o cl rH rL v : ℚ} (ho : 0 < o) (hcl : 0 < cl)
    (hrH : 0 ≤ rH) (hrL : 0 ≤ rL) (hv : 0 < v) :
    min o cl * (1 - rL * v * 0.5) ≤ o ∧ o ≤ max o cl * (1 + rH * v * 0.5) ∧
    min o cl * (1 - rL * v * 0.5) ≤ cl ∧ cl ≤ max o cl * (1 + rH * v * 0.5) := by
  have hmin : 0 < min o cl := lt_min ho hcl
  have hx : 0 ≤ rL * v * 0.5 := by positivity
  have hy : 0 ≤ rH * v * 0.5 := by positivity
  have hlow : min o cl * (1 - rL * v * 0.5) ≤ min o cl := by nlinarith
  have hhigh : max o cl ≤ max o cl * (1 + rH * v * 0.5) := by
    nlinarith [lt_of_lt_of_le ho (le_max_left o cl)]
  exact ⟨le_trans hlow (min_le_left _ _), le_trans (le_max_left _ _) hhigh,
    le_trans hlow (min_le_right _ _), le_trans (le_max_right _ _) hhigh⟩

/-- Every emitted candle satisfies `low ≤ open ≤ high` and
`low ≤ close ≤ high`, provided the carried price stays positive. -/
theorem genHistoryDays_ohlc (b v : ℚ) (ted tod : ℤ) (f : ℕ → DayDraws)
    (hv : 0 < v) (hf : ∀ i, (f i).valid) :
    ∀ (l : List ℕ) (cp : ℚ), 0 < cp →
      ∀ c ∈ genHistoryDays b v ted tod f l cp,
        c.low ≤ c.«open» ∧ c.«open» ≤ c.high ∧
        c.low ≤ c.close ∧ c.close ≤ c.high
  | [], cp, hcp => by simp [genHistoryDays]
  | i :: rest, cp, hcp => by
    rw [genHistoryDays]
    dsimp only
    split
    · exact genHistoryDays_ohlc b v ted tod f hv hf rest cp hcp
    · intro c hc
      have hcl : (0 : ℚ) < max (cp + (((f i).rChange - 0.5) * v * cp
          + (b - cp) * 0.001)) (cp * 0.5) := by
        refine lt_of_lt_of_le (by linarith : (0 : ℚ) < cp * 0.5) (le_max_right _ _)
      rcases List.mem_cons.mp hc with rfl | hc
      · obtain ⟨_, _, hrH, _, hrL, _, _, _⟩ := hf i
        have core := candle_ohlc_core (o := cp) hcp hcl hrH hrL hv
        exact ⟨round2_mono core.1, round2_mono core.2.1,
          round2_mono core.2.2.1, round2_mono core.2.2.2⟩
      · exact genHistoryDays_ohlc b v ted tod f hv hf rest _ hcl c hc

/-- The JS loop's day-offset list `[days, ..., 0]` is strictly decreasing. -/
theorem countdown_pairwise (days : ℕ) : (countdown days).Pairwise (· > ·) := by
  unfold countdown
  rw [List.pairwise_reverse]
  exact List.pairwise_lt_range _

/-! ## Claim theorems -/

/-- C1 (counterexample): starting from a store in which every quote has
`price > 0`, one tick can produce a quote with `price = 0` (a price of 0.004
is floored at 0.002 and `toFixed(2)` rounds that to 0) and can leave a
skipped quote whose pre-tick fields violate `low ≤ price` untouched. -/
theorem tick_low_price_high_cex :
    (∀ q ∈ [cexQuoteA, cexQuoteB], 0 < q.price) ∧
    (∃ q' ∈ updateSimulatedPrices [] defaultSettings ⟨1, 0, 0⟩ 0 cexTickDraws
        [cexQuoteA, cexQuoteB], ¬ 0 < q'.price) ∧
    (∃ q' ∈ updateSimulatedPrices [] defaultSettings ⟨1, 0, 0⟩ 0 cexTickDraws
        [cexQuoteA, cexQuoteB], ¬ q'.low ≤ q'.price) := by
  have hrun : updateSimulatedPrices [] defaultSettings ⟨1, 0, 0⟩ 0 cexTickDraws
      [cexQuoteA, cexQuoteB] =
      [updateOneQuote [] defaultSettings (cexTickDraws 0) 0 cexQuoteA,
       updateOneQuote [] defaultSettings (cexTickDraws 1) 0 cexQuoteB] := by
    simp [updateSimulatedPrices, isMarketOpen, updateQuotes, defaultSettings]
  have hA : (updateOneQuote [] defaultSettings (cexTickDraws 0) 0 cexQuoteA).price
      = 0 := by
    unfold updateOneQuote cexTickDraws cexQuoteA defaultSettings getVolatility round2
    norm_num [max_def]
  have hB : updateOneQuote [] defaultSettings (cexTickDraws 1) 0 cexQuoteB
      = cexQuoteB := by
    unfold updateOneQuote cexTickDraws cexQuoteB defaultSettings getVolatility
    norm_num
  refine ⟨?_, ?_, ?_⟩
  · intro q hq
    simp only [List.mem_cons, List.not_mem_nil, or_false] at hq
    rcases hq with h | h <;> (subst h; norm_num [cexQuoteA, cexQuoteB])
  · refine ⟨updateOneQuote [] defaultSettings (cexTickDraws 0) 0 cexQuoteA,
      ?_, by rw [hA]; norm_num⟩
    rw [hrun]; exact List.mem_cons_self _ _
  · refine ⟨updateOneQuote [] defaultSettings (cexTickDraws 1) 0 cexQuoteB,
      ?_, by rw [hB]; norm_num [cexQuoteB]⟩
    rw [hrun]; exact List.mem_cons_of_mem _ (List.mem_cons_self _ _)

/-- C1 (amended): if every pre-tick quote satisfies `low ≤ price ≤ high`
and `price ≥ 0.01` (as every store produced by the code does — stored prices
are two-decimal roundings), then after one tick every quote satisfies
`low ≤ price ≤ high` and `0.01 ≤ price` (hence `price > 0`): an updated
symbol's new price is floored at half the pre-update price and its high/low
are widened with max/min against the new price, and a skipped symbol keeps
its pre-tick record. -/
theorem tick_low_price_high (stocks : Catalog) (s : SimSettings)
    (now : UTCTime) (nowMs : ℤ) (f : ℕ → TickDraws) (store : List Quote)
    (h : ∀ q ∈ store, q.low ≤ q.price ∧ q.price ≤ q.high ∧ 1/100 ≤ q.price) :
    ∀ q' ∈ updateSimulatedPrices stocks s now nowMs f store,
      q'.low ≤ q'.price ∧ q'.price ≤ q'.high ∧ 1/100 ≤ q'.price ∧
      0 < q'.price := by
  intro q' hq'
  unfold updateSimulatedPrices at hq'
  dsimp only at hq'
  split at hq'
  · have := h q' hq'
    exact ⟨this.1, this.2.1, this.2.2, by linarith [this.2.2]⟩
  · obtain ⟨j, q, hqmem, rfl⟩ := mem_updateQuotes hq'
    have := updateOneQuote_bracket stocks s (f j) nowMs q (h q hqmem)
    exact ⟨this.1, this.2.1, this.2.2, by linarith [this.2.2]⟩

/-- Witness for C1 at a benign one-quote store, instantiated at the single
post-tick quote. -/
theorem tick_low_price_high_witness :
    (updateOneQuote [] defaultSettings ⟨0, 0, 0, 0, 0, 0⟩ 0 okQuote).low ≤
      (updateOneQuote [] defaultSettings ⟨0, 0, 0, 0, 0, 0⟩ 0 okQuote).price ∧
    (updateOneQuote [] defaultSettings ⟨0, 0, 0, 0, 0, 0⟩ 0 okQuote).price ≤
      (updateOneQuote [] defaultSettings ⟨0, 0, 0, 0, 0, 0⟩ 0 okQuote).high ∧
    1/100 ≤ (updateOneQuote [] defaultSettings ⟨0, 0, 0, 0, 0, 0⟩ 0 okQuote).price ∧
    0 < (updateOneQuote [] defaultSettings ⟨0, 0, 0, 0, 0, 0⟩ 0 okQuote).price :=
  tick_low_price_high [] defaultSettings ⟨1, 0, 0⟩ 0
    (fun _ => ⟨0, 0, 0, 0, 0, 0⟩) [okQuote]
    (by intro q hq; simp only [List.mem_cons, List.not_mem_nil, or_false] at hq
        subst hq; norm_num [okQuote])
    (updateOneQuote [] defaultSettings ⟨0, 0, 0, 0, 0, 0⟩ 0 okQuote)
    (by simp [updateSimulatedPrices, isMarketOpen, defaultSettings, updateQuotes])

/-- C9: bid and ask bracket the price.  At initialization every seeded quote
of a positive-base-price catalog satisfies `bid ≤ price ≤ ask` (and
`0 ≤ price`), and a tick preserves that property: both sides derive
`bid = round2(p*0.9995)` and `ask = round2(p*1.0005)` from the same
nonnegative new price, and two-decimal rounding is monotone. -/
theorem bid_le_price_le_ask :
    (∀ (stocks allStocks : Catalog) (f : ℕ → InitDraws)
        (nowMs todayEpochDay timeOfDayMs : ℤ),
      (∀ p ∈ allStocks, 0 < p.2.basePrice) → (∀ i, (f i).valid) →
      ∀ q ∈ (initializeSimulatedPrices stocks allStocks f
          nowMs todayEpochDay timeOfDayMs).1,
        q.bid ≤ q.price ∧ q.price ≤ q.ask ∧ 0 ≤ q.price) ∧
    (∀ (stocks : Catalog) (s : SimSettings) (now : UTCTime) (nowMs : ℤ)
        (f : ℕ → TickDraws) (store : List Quote),
      (∀ q ∈ store, q.bid ≤ q.price ∧ q.price ≤ q.ask ∧ 0 ≤ q.price) →
      ∀ q' ∈ updateSimulatedPrices stocks s now nowMs f store,
        q'.bid ≤ q'.price ∧ q'.price ≤ q'.ask ∧ 0 ≤ q'.price) := by
  constructor
  · intro stocks allStocks f nowMs ted tod hbase hvalid q hq
    obtain ⟨j, p, hp, rfl⟩ := mem_initQuotes hq
    exact initQuote_spread stocks (f j) nowMs p.1 p.2 (hvalid j) (hbase p hp)
  · intro stocks s now nowMs f store h q' hq'
    unfold updateSimulatedPrices at hq'
    dsimp only at hq'
    split at hq'
    · exact h q' hq'
    · obtain ⟨j, q, hqmem, rfl⟩ := mem_updateQuotes hq'
      exact updateOneQuote_spread stocks s (f j) nowMs q (h q hqmem)

/-- Witness for C9: a one-entry catalog initialization and a one-quote tick. -/
theorem bid_le_price_le_ask_witness :
    (∀ q ∈ (initializeSimulatedPrices [] [("FOO.NS", ⟨"Foo Ltd", some "IT", 100⟩)]
        (fun _ => ⟨0, 0, 0, 0, 0, 0, 0, 0, fun _ => ⟨0, 0, 0, 0⟩⟩) 0 0 0).1,
      q.bid ≤ q.price ∧ q.price ≤ q.ask ∧ 0 ≤ q.price) ∧
    (∀ q' ∈ updateSimulatedPrices [] defaultSettings ⟨1, 0, 0⟩ 0
        (fun _ => ⟨0, 0, 0, 0, 0, 0⟩) [okQuote],
      q'.bid ≤ q'.price ∧ q'.price ≤ q'.ask ∧ 0 ≤ q'.price) :=
  ⟨bid_le_price_le_ask.1 [] [("FOO.NS", ⟨"Foo Ltd", some "IT", 100⟩)]
      (fun _ => ⟨0, 0, 0, 0, 0, 0, 0, 0, fun _ => ⟨0, 0, 0, 0⟩⟩) 0 0 0
      (by intro p hp; simp only [List.mem_cons, List.not_mem_nil, or_false] at hp
          subst hp; norm_num)
      (by intro i; norm_num [InitDraws.valid]),
   bid_le_price_le_ask.2 [] defaultSettings ⟨1, 0, 0⟩ 0
      (fun _ => ⟨0, 0, 0, 0, 0, 0⟩) [okQuote]
      (by intro q hq; simp only [List.mem_cons, List.not_mem_nil, or_false] at hq
          subst hq; norm_num [okQuote])⟩

/-- C7: for every symbol and every invocation of the History Synthesizer
(positive base price, draws in `[0,1)`), the produced candle series has
strictly ascending timestamps, contains no Saturday- or Sunday-dated candle,
and every candle satisfies `low ≤ open ≤ high` and `low ≤ close ≤ high`. -/
theorem generateHistoricalData_wellFormed (stocks : Catalog) (basePrice : ℚ)
    (symbol : String) (rInit : ℚ) (f : ℕ → DayDraws) (ted tod : ℤ) (days : ℕ)
    (hb : 0 < basePrice) (hr : 0 ≤ rInit) (hf : ∀ i, (f i).valid) :
    ((generateHistoricalData stocks basePrice symbol rInit f ted tod
        days).Pairwise (fun c₁ c₂ => c₁.timestamp < c₂.timestamp)) ∧
    (∀ c ∈ generateHistoricalData stocks basePrice symbol rInit f ted tod days,
        dayOfWeek c.date ≠ 0 ∧ dayOfWeek c.date ≠ 6) ∧
    (∀ c ∈ generateHistoricalData stocks basePrice symbol rInit f ted tod days,
        c.low ≤ c.«open» ∧ c.«open» ≤ c.high ∧
        c.low ≤ c.close ∧ c.close ≤ c.high) := by
  have hv2 : (0 : ℚ) < getVolatility stocks symbol * 2 := by
    have := getVolatility_pos stocks symbol
    linarith
  have hcp : (0 : ℚ) < basePrice * (0.7 + rInit * 0.4) := by nlinarith
  unfold generateHistoricalData
  dsimp only
  refine ⟨?_, ?_, ?_⟩
  · exact genHistoryDays_pairwise _ _ _ _ _ _ _ (countdown_pairwise days)
  · intro c hc
    obtain ⟨i, _, hdate, _, h0, h6⟩ :=
      genHistoryDays_mem_shape _ _ ted tod f _ _ c hc
    rw [hdate]
    exact ⟨h0, h6⟩
  · exact genHistoryDays_ohlc _ _ ted tod f hv2 hf _ _ hcp

/-- Witness for C7 at base price 100, a five-day span and zero draws. -/
theorem generateHistoricalData_wellFormed_witness :
    ((generateHistoricalData [] 100 "FOO.NS" 0 (fun _ => ⟨0, 0, 0, 0⟩) 10 0
        5).Pairwise (fun c₁ c₂ => c₁.timestamp < c₂.timestamp)) ∧
    (∀ c ∈ generateHistoricalData [] 100 "FOO.NS" 0 (fun _ => ⟨0, 0, 0, 0⟩) 10 0 5,
        dayOfWeek c.date ≠ 0 ∧ dayOfWeek c.date ≠ 6) ∧
    (∀ c ∈ generateHistoricalData [] 100 "FOO.NS" 0 (fun _ => ⟨0, 0, 0, 0⟩) 10 0 5,
        c.low ≤ c.«open» ∧ c.«open» ≤ c.high ∧
        c.low ≤ c.close ∧ c.close ≤ c.high) :=
  generateHistoricalData_wellFormed [] 100 "FOO.NS" 0 (fun _ => ⟨0, 0, 0, 0⟩)
    10 0 5 (by norm_num) le_rfl
    (by intro i; norm_num [DayDraws.valid])

/-- C6: after the reset operation (which re-runs initialization over the same
catalog) and before any tick has run, every catalog symbol's stored quote has
`previousClose` equal to the catalog entry's `basePrice`. -/
theorem reset_previousClose_eq_basePrice
    (stocks allStocks : Catalog) (f : ℕ → InitDraws)
    (nowMs todayEpochDay timeOfDayMs : ℤ)
    (i : ℕ) (sym : String) (info : StockInfo)
    (h : allStocks.get? i = some (sym, info)) :
    ∃ q, (resetSimulation stocks allStocks f nowMs todayEpochDay timeOfDayMs).1.get? i
        = some q ∧ q.previousClose = info.basePrice := by
  refine ⟨initQuote stocks (f i) nowMs sym info, ?_, rfl⟩
  have hg := initQuotes_get? stocks f nowMs allStocks 0 i
  rw [h] at hg
  show (initQuotes stocks f nowMs 0 allStocks).get? i = _
  rw [hg, Nat.zero_add]
  rfl

/-- Witness for C6 at a one-entry catalog. -/
theorem reset_previousClose_eq_basePrice_witness :
    ∃ q, (resetSimulation [] [("FOO.NS", ⟨"Foo Ltd", some "IT", 100⟩)]
        (fun _ => ⟨0, 0, 0, 0, 0, 0, 0, 0, fun _ => ⟨0, 0, 0, 0⟩⟩) 0 0 0).1.get? 0
        = some q ∧ q.previousClose = 100 :=
  reset_previousClose_eq_basePrice [] [("FOO.NS", ⟨"Foo Ltd", some "IT", 100⟩)]
    (fun _ => ⟨0, 0, 0, 0, 0, 0, 0, 0, fun _ => ⟨0, 0, 0, 0⟩⟩) 0 0 0 0
    "FOO.NS" ⟨"Foo Ltd", some "IT", 100⟩ rfl

/-- C3 (counterexample): `update({})` does leave the settings unchanged, but
the handler calls `startPriceUpdates()` unconditionally, so the update timer
IS cancelled and re-armed (a fresh `setInterval` handle is stored) even though
no field was accepted. -/
theorem putSettings_empty_rearms_timer :
    (putSimulationSettings emptyBody defaultSettings
        ⟨some 0, 2000, 1⟩).1 = defaultSettings ∧
    (putSimulationSettings emptyBody defaultSettings
        ⟨some 0, 2000, 1⟩).2.updateIntervalId ≠ some 0 := by
  constructor
  · rfl
  · simp [putSimulationSettings, applySettingsUpdate, emptyBody, startPriceUpdates]

/-- C3 (amended): `update({})` (no recognized fields) leaves every field of
`SimulationSettings` unchanged, but the update timer is nonetheless always
cancelled and re-armed — a fresh handle is stored and the cadence recomputed
from the (unchanged) settings — because the handler restarts the timer
unconditionally. -/
theorem putSettings_empty_settings_unchanged (s : SimSettings) (t : TimerState) :
    (putSimulationSettings emptyBody s t).1 = s ∧
    (putSimulationSettings emptyBody s t).2.updateIntervalId = some t.nextHandle ∧
    (putSimulationSettings emptyBody s t).2.nextHandle = t.nextHandle + 1 ∧
    (putSimulationSettings emptyBody s t).2.interval
      = max 500 (s.updateInterval / s.speed) := by
  refine ⟨rfl, rfl, rfl, rfl⟩

/-- C5: if `alwaysOpen` is false and the market clock classifies the current
wall-clock as not open, one tick leaves every quote record unchanged. -/
theorem tick_market_closed_frame (stocks : Catalog) (s : SimSettings)
    (now : UTCTime) (nowMs : ℤ) (f : ℕ → TickDraws) (store : List Quote)
    (hA : s.alwaysOpen = false) (hO : (isMarketOpen s now).isOpen = false) :
    updateSimulatedPrices stocks s now nowMs f store = store := by
  unfold updateSimulatedPrices
  simp only [hO, hA]
  rfl

/-- Witness for C5 on a Sunday in IST (UTC Sunday 05:00 = IST Sunday 10:30)
with `alwaysOpen := false` and a nonempty store. -/
theorem tick_market_closed_frame_witness :
    updateSimulatedPrices [] { defaultSettings with alwaysOpen := false }
      ⟨0, 5, 0⟩ 0 (fun _ => ⟨0, 0, 0, 0, 0, 0⟩)
      [{ symbol := "FOO.NS", name := "Foo Ltd", sector := "IT", price := 100,
         previousClose := 100, «open» := 100, high := 101, low := 99,
         volume := 5000, change := 0, changePercent := 0, lastUpdated := 0,
         bid := 99, ask := 101, bidSize := 100, askSize := 100 }]
      = [{ symbol := "FOO.NS", name := "Foo Ltd", sector := "IT", price := 100,
           previousClose := 100, «open» := 100, high := 101, low := 99,
           volume := 5000, change := 0, changePercent := 0, lastUpdated := 0,
           bid := 99, ask := 101, bidSize := 100, askSize := 100 }] :=
  tick_market_closed_frame _ _ _ _ _ _ rfl (by simp [isMarketOpen])

/-- C2 (counterexample): on a weekday with `currentPrice = basePrice = 100`,
draw `r = 3/4` and default volatility `0.02`, the code's candle closes at
`101` (delta `= (r - 0.5) * (2*vol) * price = 1`), while the claim's formula
`delta = (2r-1) * (2*vol) * price = 2` would close at `102`. -/
theorem history_delta_cex :
    ∃ c, generateHistoricalData [] 100 "X" (3/4) (fun _ => ⟨3/4, 0, 0, 0⟩)
        0 0 0 = [c] ∧
      c.close = 101 ∧
      round2 (max (100 + specClaimDelta (3/4) (getVolatility [] "X") 100 100)
        (100 * 0.5)) = 102 ∧
      (101 : ℚ) ≠ 102 := by
  have hrun : generateHistoricalData [] 100 "X" (3/4) (fun _ => ⟨3/4, 0, 0, 0⟩)
      0 0 0 =
      [{ date := 0, timestamp := 0, «open» := 100, high := 101, low := 100,
         close := 101, volume := 500000 }] := by
    unfold generateHistoricalData countdown getVolatility
    norm_num [List.range, List.range.loop, genHistoryDays, dayOfWeek,
      round2, max_def, min_def]
  refine ⟨_, hrun, by norm_num, ?_, by norm_num⟩
  unfold specClaimDelta getVolatility
  norm_num [round2, max_def]

/-- C2 (amended): for each kept (non-weekend) day of the History Synthesizer
(whose loop receives `volatility = getVolatility(symbol) * 2`), the day's
candle opens at the carried price and closes at
`round2(max(currentPrice + delta, currentPrice * 0.5))` with
`delta = (2r-1) * volatilityOf(sector) * currentPrice + trend`,
`trend = (basePrice - currentPrice) * 0.001` and `r` the day's uniform draw
in `[0,1)` — i.e. `U(-1,1) * volatility * currentPrice + trend`, half the
claimed magnitude. -/
theorem history_delta_amended (stocks : Catalog) (symbol : String)
    (basePrice : ℚ) (ted tod : ℤ) (f : ℕ → DayDraws)
    (i : ℕ) (rest : List ℕ) (currentPrice : ℚ)
    (hday : ¬(dayOfWeek (ted - (i : ℤ)) = 0 ∨ dayOfWeek (ted - (i : ℤ)) = 6)) :
    ∃ c tail,
      genHistoryDays basePrice (getVolatility stocks symbol * 2) ted tod f
        (i :: rest) currentPrice = c :: tail ∧
      c.«open» = round2 currentPrice ∧
      c.close = round2 (max (currentPrice +
        specDeltaAmended (f i).rChange (getVolatility stocks symbol)
          currentPrice basePrice) (currentPrice * 0.5)) := by
  rw [genHistoryDays]
  dsimp only
  rw [if_neg hday]
  refine ⟨_, _, rfl, rfl, ?_⟩
  have harg : currentPrice + (((f i).rChange - 0.5) *
        (getVolatility stocks symbol * 2) * currentPrice
        + (basePrice - currentPrice) * 0.001)
      = currentPrice + specDeltaAmended (f i).rChange
          (getVolatility stocks symbol) currentPrice basePrice := by
    unfold specDeltaAmended
    ring
  rw [harg]

/-- Witness for C2 (amended) at the counterexample's day. -/
theorem history_delta_amended_witness :
    ∃ c tail,
      genHistoryDays 100 (getVolatility [] "X" * 2) 0 0
        (fun _ => ⟨3/4, 0, 0, 0⟩) (0 :: []) 100 = c :: tail ∧
      c.«open» = round2 100 ∧
      c.close = round2 (max (100 +
        specDeltaAmended (3/4) (getVolatility [] "X") 100 100) (100 * 0.5)) :=
  history_delta_amended [] "X" 100 0 0 (fun _ => ⟨3/4, 0, 0, 0⟩) 0 [] 100
    (by norm_num [dayOfWeek])

/-- C4 (counterexample): when the range filter leaves no candles, the handler
(guarded by `history.length > 0`) appends nothing: the served series is empty
and in particular contains no synthetic "today" candle, contrary to the
claim's "in every other case, including when the filter leaves no candles". -/
theorem serveHistory_today_cex :
    serveHistory [cexOldCandle] (some okQuote) 730 63072000000 "1y" = [] ∧
    ¬ ∃ c ∈ serveHistory [cexOldCandle] (some okQuote) 730 63072000000 "1y",
        c.date = (730 : ℤ) := by
  have hfl : filteredHistory [cexOldCandle] 63072000000 "1y" = [] := by
    simp [filteredHistory, rangeDays, cexOldCandle]
  have h : serveHistory [cexOldCandle] (some okQuote)
      730 63072000000 "1y" = [] := by
    simp [serveHistory, hfl]
  exact ⟨h, by rw [h]; simp⟩

/-- C4 (amended): the served view of a history query.  With no live quote, or
when the range filter leaves no candles, the filtered series is served as-is
(nothing is appended).  Otherwise, if the most recent filtered candle is
dated today it is overlaid — on the served copy — with the live quote
(`close := price`, `high/low` widened against `price`, `volume` replaced when
nonzero); if it is not dated today, a synthetic "today" candle built from
the live quote is appended to the served copy. -/
theorem serveHistory_today_view (stored : List Candle) (q : Quote)
    (today nowMs : ℤ) (range : String) :
    (serveHistory stored none today nowMs range
        = filteredHistory stored nowMs range) ∧
    (filteredHistory stored nowMs range = [] →
      serveHistory stored (some q) today nowMs range = []) ∧
    (∀ h : filteredHistory stored nowMs range ≠ [],
      ((filteredHistory stored nowMs range).getLast h).date = today →
      serveHistory stored (some q) today nowMs range =
        (filteredHistory stored nowMs range).dropLast ++
        [{ (filteredHistory stored nowMs range).getLast h with
           close := q.price
           high := max ((filteredHistory stored nowMs range).getLast h).high
             q.price
           low := min ((filteredHistory stored nowMs range).getLast h).low
             q.price
           volume := jsOrZ q.volume
             ((filteredHistory stored nowMs range).getLast h).volume }]) ∧
    (∀ h : filteredHistory stored nowMs range ≠ [],
      ((filteredHistory stored nowMs range).getLast h).date ≠ today →
      serveHistory stored (some q) today nowMs range =
        filteredHistory stored nowMs range ++
        [{ date := today, timestamp := nowMs,
           «open» := jsOrQ q.previousClose q.price,
           high := jsOrQ q.high q.price,
           low := jsOrQ q.low q.price,
           close := q.price,
           volume := jsOrZ q.volume 0 }]) := by
  refine ⟨rfl, ?_, ?_, ?_⟩
  · intro hempty
    unfold serveHistory
    dsimp only
    rw [dif_neg (by simp [hempty])]
    exact hempty
  · intro h hdate
    unfold serveHistory
    dsimp only
    rw [dif_pos h, if_pos hdate]
  · intro h hdate
    unfold serveHistory
    dsimp only
    rw [dif_pos h, if_neg hdate]

/-- Witness for C4 (amended): a store whose single candle is dated today is
overlaid with the live quote on the served copy. -/
theorem serveHistory_today_view_witness :
    serveHistory [cexTodayCandle] (some okQuote) 730 63072000000 "1y" =
      [{ cexTodayCandle with close := 100, high := 101, low := 99,
                             volume := 5000 }] := by
  have hfl : filteredHistory [cexTodayCandle] 63072000000 "1y"
      = [cexTodayCandle] := by
    simp [filteredHistory, rangeDays, cexTodayCandle]
  have hpart := (serveHistory_today_view [cexTodayCandle]
      okQuote 730 63072000000 "1y").2.2.1
  rw [hfl] at hpart
  have happ := hpart (by simp) (by norm_num [cexTodayCandle])
  rw [happ]
  norm_num [cexTodayCandle, okQuote, jsOrZ, max_def, min_def,
    List.getLast, List.dropLast]

/-- C8: serving a history query never mutates the stored series.  In the
identity-heap embedding — where the stored array holds object ids into a
candle heap, `filter` produces a fresh array aliasing the same ids, and the
overlay/append branches allocate fresh objects rather than writing through a
shared id — every binding present in the heap before the request is still
looked up unchanged afterwards; the stored id array itself is never written
by the handler. -/
theorem serveHistoryAlias_frame (heap : List (ℕ × Candle)) (nextId : ℕ)
    (storedIds : List ℕ) (quote : Option Quote) (today nowMs : ℤ)
    (range : String) :
    ∀ (id : ℕ) (c : Candle), List.lookup id heap = some c →
      List.lookup id (serveHistoryAlias heap nextId storedIds quote
        today nowMs range).1 = some c := by
  intro id c h
  unfold serveHistoryAlias
  dsimp only
  cases quote with
  | none => exact h
  | some q =>
    dsimp only
    split
    · split
      · exact h
      · split
        · exact lookup_append_of_some _ h
        · exact lookup_append_of_some _ h
    · exact h

/-- Witness for C8: a two-candle heap with the first candle dated today, a
query that takes the overlay branch, and the stored binding still intact. -/
theorem serveHistoryAlias_frame_witness :
    List.lookup 0 (serveHistoryAlias [(0, cexTodayCandle), (1, cexOldCandle)]
        2 [1, 0] (some okQuote) 730 63072000000 "1y").1 = some cexTodayCandle :=
  serveHistoryAlias_frame [(0, cexTodayCandle), (1, cexOldCandle)] 2 [1, 0]
    (some okQuote) 730 63072000000 "1y" 0 cexTodayCandle rfl

/-- C10: a `range` query value outside `{1d,5d,1mo,3mo,6mo,1y}` is not
rejected: it is treated as 365 days, so the served series is exactly the one
served for `range=1y` (whose cutoff is `now - 365*86400000` ms). -/
theorem rangeDays_default_365 (range : String)
    (h : range ∉ (["1d", "5d", "1mo", "3mo", "6mo", "1y"] : List String)) :
    rangeDays range = 365 ∧
    ∀ (stored : List Candle) (quote : Option Quote) (todayEpochDay nowMs : ℤ),
      serveHistory stored quote todayEpochDay nowMs range =
        serveHistory stored quote todayEpochDay nowMs "1y" := by
  simp only [List.mem_cons, List.not_mem_nil, or_false, not_or] at h
  obtain ⟨h1, h2, h3, h4, h5, h6⟩ := h
  have h365 : rangeDays range = 365 := by
    simp [rangeDays, h1, h2, h3, h4, h5, h6]
  have h1y : rangeDays "1y" = 365 := by simp [rangeDays]
  refine ⟨h365, ?_⟩
  intro stored quote todayEpochDay nowMs
  have hfl : filteredHistory stored nowMs range
      = filteredHistory stored nowMs "1y" := by
    unfold filteredHistory
    rw [h365, h1y]
  unfold serveHistory
  rw [hfl]

/-- Witness for C10 at the unknown range string `2y`. -/
theorem rangeDays_default_365_witness :
    rangeDays "2y" = 365 ∧
    ∀ (stored : List Candle) (quote : Option Quote) (todayEpochDay nowMs : ℤ),
      serveHistory stored quote todayEpochDay nowMs "2y" =
        serveHistory stored quote todayEpochDay nowMs "1y" :=
  rangeDays_default_365 "2y" (by simp)

end StockServer
